import Mathlib

/-!
Shallow embedding of `import_playlist_to_notion.py` (NotionYoutube).

The program is sequential orchestration: run the yt-dlp tool, parse its JSON
output, query a remote Notion database page by page, and create one page per
playlist record whose URL is not already stored.  External effects are
modelled as explicit inputs: the tool is an oracle `String → ToolResult`
giving, per invoked URL, the raw outcome of the subprocess; the Notion
database query endpoint is the list of responses it serves in cursor order;
page creations are collected in a list.  Python `None` becomes `Option`,
the uncaught `ValueError` of `datetime.strptime` becomes `Except.error`,
and a Python `set` of strings becomes `Finset String`.
-/

namespace NotionYoutube

/-- One element of the `entries` array of the flat playlist JSON:
a dict from which the code reads keys `id` and `title` (absent key or JSON
null both read as `None` by `dict.get`). -/
structure Entry where
  id : Option String
  title : Option String
deriving DecidableEq

/-- The parsed JSON dict returned by yt-dlp, restricted to the keys the
program reads: `title` and `entries` (flat playlist call) and `upload_date`
and `duration` (single video call).  All keys optional; the empty dict has
every field `none`. -/
structure YtJson where
  title : Option String := none
  entries : Option (List (Option Entry)) := none
  upload_date : Option String := none
  duration : Option Int := none
deriving DecidableEq

/-- Raw outcome of one yt-dlp subprocess run: no stdout at all (after
stripping), stdout that fails `json.loads`, or stdout parsing to a dict. -/
inductive ToolResult where
  | noOutput : ToolResult
  | invalidJson : ToolResult
  | output : YtJson → ToolResult
deriving DecidableEq

/-- `run_yt_dlp`: returns the parsed JSON dict, or the empty dict when the
tool produced no output or invalid JSON (both branches log a warning and
return `{}`; the run continues). -/
def run_yt_dlp : ToolResult → YtJson
  | ToolResult.noOutput => {}
  | ToolResult.invalidJson => {}
  | ToolResult.output j => j

/-- Python truthiness of an optional string: `None` and `""` are falsy. -/
def truthyStr : Option String → Bool
  | none => false
  | some s => !(s == "")

/-- Numeric value of an ASCII digit character. -/
def digitVal (c : Char) : Nat := c.toNat - 48

/-- Number of days in a month, Gregorian calendar, as validated by
`datetime`. -/
def daysInMonth (y m : Nat) : Nat :=
  if m = 2 then
    if (y % 4 = 0 ∧ y % 100 ≠ 0) ∨ y % 400 = 0 then 29 else 28
  else if m = 4 ∨ m = 6 ∨ m = 9 ∨ m = 11 then 30 else 31

/-- The numeric year of four digit characters. -/
def yearOf (a b c e : Char) : Nat :=
  ((digitVal a * 10 + digitVal b) * 10 + digitVal c) * 10 + digitVal e

/-- The numeric value of two digit characters. -/
def twoDigits (a b : Char) : Nat := digitVal a * 10 + digitVal b

/-- Calendar validity of a year/month/day triple as `datetime` enforces
it: positive year, month 1..12, day within the month (leap years
included). -/
def ymdOk (y m d : Nat) : Bool :=
  decide (1 ≤ y ∧ 1 ≤ m ∧ m ≤ 12 ∧ 1 ≤ d ∧ d ≤ daysInMonth y m)

/-- `datetime.strptime(s, "%Y%m%d").date().isoformat()` for the 8-digit
upload-date strings yt-dlp emits: four year digits, two month digits, two
day digits; the parse validates month and day ranges against the calendar
and raises `ValueError` otherwise, modelled as `Except.error`.  The ISO
result re-arranges the same digits with dashes. -/
def parseUploadDate : String → Except String String
  | ⟨[a, b, c, e, f, g, h, i]⟩ =>
    if ([a, b, c, e, f, g, h, i].all Char.isDigit) &&
        ymdOk (yearOf a b c e) (twoDigits f g) (twoDigits h i) then
      Except.ok ⟨[a, b, c, e, '-', f, g, '-', h, i]⟩
    else Except.error "ValueError: time data does not match format %Y%m%d"
  | _ => Except.error "ValueError: time data does not match format %Y%m%d"

/-- Validity of an ISO-8601 calendar date string `YYYY-MM-DD`: ten
characters, dashes at positions 4 and 7, digits elsewhere, and a valid
Gregorian calendar date. -/
def isValidIsoDate : String → Bool
  | ⟨[a, b, c, e, k1, f, g, k2, h, i]⟩ =>
    (k1 == '-') && (k2 == '-') &&
    ([a, b, c, e, f, g, h, i].all Char.isDigit) &&
    ymdOk (yearOf a b c e) (twoDigits f g) (twoDigits h i)
  | _ => false

/-- `fetch_video_metadata`: run yt-dlp on one video URL, parse `upload_date`
into an ISO date when the field is truthy (absent or empty propagates as
`none`), and take `duration` verbatim.  The oracle `meta` gives the raw
subprocess outcome per URL.  The `isinstance(data, dict)` guard in the
source is vacuous here since `run_yt_dlp` always yields a dict. -/
def fetch_video_metadata (meta : String → ToolResult) (video_url : String) :
    Except String (Option String × Option Int) :=
  match (run_yt_dlp (meta video_url)).upload_date with
  | none => Except.ok (none, (run_yt_dlp (meta video_url)).duration)
  | some s =>
    if s = "" then Except.ok (none, (run_yt_dlp (meta video_url)).duration)
    else
      match parseUploadDate s with
      | Except.ok d => Except.ok (some d, (run_yt_dlp (meta video_url)).duration)
      | Except.error err => Except.error err

/-- One video record built by `fetch_playlist_videos`; the Python dict keys
`title`, `url`, `og_added_iso`, `length_sec`, `private`. -/
structure Video where
  title : String
  url : Option String
  og_added_iso : Option String
  length_sec : Option Int
  isPrivate : Bool
deriving DecidableEq

/-- ASCII lowering of a string, as `str.lower()` acts on the ASCII range.  -/
def toLowerAscii (s : String) : String := ⟨s.data.map Char.toLower⟩

/-- The synthesized display title for private or placeholder entries. -/
def mkPrivateTitle (playlist_name : String) : String :=
  "Private Video -> " ++ playlist_name

/-- The canonical watch URL derived from a truthy entry id, `none`
otherwise (`f"https://www.youtube.com/watch?v={video_id}" if video_id else
None`). -/
def entryUrl (e : Entry) : Option String :=
  match e.id with
  | some i => if i = "" then none else some ("https://www.youtube.com/watch?v=" ++ i)
  | none => none

/-- `is_private = not raw_title or raw_title.lower() == "[private video]"`. -/
def entryIsPrivate (e : Entry) : Bool :=
  match e.title with
  | none => true
  | some t => (t == "") || (toLowerAscii t == "[private video]")

/-- The private placeholder record appended for a falsy (absent/null)
playlist entry. -/
def placeholderVideo (playlist_name : String) : Video :=
  { title := mkPrivateTitle playlist_name
    url := none
    og_added_iso := none
    length_sec := none
    isPrivate := true }

/-- `title = raw_title if not is_private else f"Private Video -> ..."`
(the `getD ""` arm is unreachable: a public entry always has a nonempty
raw title). -/
def entryTitle (playlist_name : String) (e : Entry) : String :=
  if entryIsPrivate e then mkPrivateTitle playlist_name else e.title.getD ""

/-- Loop body of `fetch_playlist_videos` for one element of `entries`:
placeholder for a falsy entry; otherwise derive URL from `id`, compute the
privacy flag and display title from `title`, and call the enricher exactly
when the record is public and has a truthy URL. -/
def processEntry (meta : String → ToolResult) (playlist_name : String) :
    Option Entry → Except String Video
  | none => Except.ok (placeholderVideo playlist_name)
  | some e =>
    if !entryIsPrivate e && truthyStr (entryUrl e) then
      match fetch_video_metadata meta ((entryUrl e).getD "") with
      | Except.ok (og_added_iso, length_sec) =>
        Except.ok { title := entryTitle playlist_name e, url := entryUrl e,
                    og_added_iso := og_added_iso, length_sec := length_sec,
                    isPrivate := entryIsPrivate e }
      | Except.error err => Except.error err
    else
      Except.ok { title := entryTitle playlist_name e, url := entryUrl e,
                  og_added_iso := none, length_sec := none,
                  isPrivate := entryIsPrivate e }

/-- The `for` loop of `fetch_playlist_videos`: build one record per entry
in order, propagating an uncaught parse failure. -/
def buildVideos (meta : String → ToolResult) (playlist_name : String) :
    List (Option Entry) → Except String (List Video)
  | [] => Except.ok []
  | en :: rest =>
    match processEntry meta playlist_name en with
    | Except.error err => Except.error err
    | Except.ok v =>
      match buildVideos meta playlist_name rest with
      | Except.error err => Except.error err
      | Except.ok vs => Except.ok (v :: vs)

/-- `fetch_playlist_videos`: run yt-dlp in flat-playlist mode on the
playlist URL, default the playlist name to "Unknown Playlist" and the
entries to `[]`, and build one record per entry in order.  `flat` and
`meta` are the subprocess oracles for the two call shapes. -/
def fetch_playlist_videos (flat meta : String → ToolResult) (playlist_url : String) :
    Except String (List Video × String) :=
  match buildVideos meta ((run_yt_dlp (flat playlist_url)).title.getD "Unknown Playlist")
      ((run_yt_dlp (flat playlist_url)).entries.getD []) with
  | Except.ok videos =>
    Except.ok (videos, (run_yt_dlp (flat playlist_url)).title.getD "Unknown Playlist")
  | Except.error err => Except.error err

/-- One page of a Notion database query result, restricted to what the
code reads: `page["properties"].get("URL", \x7b\x7d).get("url")`, an
optional string (absent property, or a null/empty url field, both end up
falsy). -/
structure QueryPage where
  urlProp : Option String
deriving DecidableEq

/-- One response of `notion.databases.query`: the `results` array and the
`has_more` flag (the `next_cursor` is modelled by the position in the list
of responses the service serves in cursor order). -/
structure QueryResp where
  results : List QueryPage
  has_more : Bool
deriving DecidableEq

/-- Body of the inner loop of `fetch_existing_urls`: add the URL property
value of one page to the set when it is truthy. -/
def addUrlProp (a : Finset String) (p : QueryPage) : Finset String :=
  match p.urlProp with
  | some u => if u = "" then a else insert u a
  | none => a

/-- Inner loop of `fetch_existing_urls` over one `results` array: add each
truthy URL property value to the set. -/
def addPageUrls (acc : Finset String) (pages : List QueryPage) : Finset String :=
  pages.foldl addUrlProp acc

/-- The `while True` pagination loop of `fetch_existing_urls`: process the
current response, stop when `has_more` is falsy, otherwise continue with
the next cursor.  The service is modelled as the finite list of responses
it serves in cursor order. -/
def fetchLoop (acc : Finset String) : List QueryResp → Finset String
  | [] => acc
  | r :: rest =>
    let acc2 := addPageUrls acc r.results
    if r.has_more then fetchLoop acc2 rest else acc2

/-- `fetch_existing_urls`: the set of truthy URL property values over the
responses served until the first one with `has_more` falsy. -/
def fetch_existing_urls (resps : List QueryResp) : Finset String :=
  fetchLoop ∅ resps

/-- The prefix of responses the loop actually requests: every response up
to and including the first whose `has_more` is falsy. -/
def servedResponses : List QueryResp → List QueryResp
  | [] => []
  | r :: rest => if r.has_more then r :: servedResponses rest else [r]

/-- Icon chosen for a created page: the lock emoji for private records,
otherwise the fixed external play image URL. -/
inductive PageIcon where
  | emoji : String → PageIcon
  | externalUrl : String → PageIcon
deriving DecidableEq

/-- The page-creation request built by `add_videos_to_notion` for one
record: the `properties` dict flattened field by field.  `status`, `url`,
`ogAdded` and `lengthSec` are `none` exactly when the corresponding key is
left out of the dict. -/
structure PageRequest where
  name : String
  priority : String
  topic : List String
  playlistName : String
  status : Option String
  url : Option String
  ogAdded : Option String
  lengthSec : Option Int
  icon : PageIcon
deriving DecidableEq

/-- Build the properties and icon of the page created for one record:
title, priority select and topic multi-select from configuration, the
playlist name as rich text; conditionally the "On Hold" status for private
records, the URL when truthy, the date when truthy, the number when not
`None` (note: the source tests `og_added_iso` for truthiness but
`length_sec` with `is not None`). -/
def mkProperties (PRIORITY : String) (TOPIC : List String) (playlist_name : String)
    (v : Video) : PageRequest :=
  { name := v.title
    priority := PRIORITY
    topic := TOPIC
    playlistName := playlist_name
    status := if v.isPrivate then some "On Hold" else none
    url := match v.url with
      | some u => if u = "" then none else some u
      | none => none
    ogAdded := match v.og_added_iso with
      | some d => if d = "" then none else some d
      | none => none
    lengthSec := v.length_sec
    icon := if v.isPrivate then PageIcon.emoji "🔒"
            else PageIcon.externalUrl "https://www.iconsdb.com/icons/preview/black/play-5-xl.png" }

/-- One log line of the reconciler: a per-record skip line, a per-record
add line, or the final summary line carrying the added count ("Done.
Added %d new videos to Notion."). -/
inductive LogEvent where
  | skippedRec : String → LogEvent
  | addedRec : String → LogEvent
  | doneSummary : Nat → LogEvent
deriving DecidableEq

/-- State threaded through the loop of `add_videos_to_notion`: the set it
was given (never written to), the page-creation requests submitted so far,
the `added_count` counter, and the log lines emitted. -/
structure ReconcileState where
  existing_urls : Finset String
  created : List PageRequest
  added_count : Nat
  logs : List LogEvent
deriving DecidableEq

/-- The skip test `v["url"] in existing_urls` (Python membership of an
optional string in a set of strings: `None` is in no such set). -/
def shouldSkip (ex : Finset String) (v : Video) : Bool :=
  match v.url with
  | some u => decide (u ∈ ex)
  | none => false

/-- Loop body of `add_videos_to_notion` for one record: log and skip when
the URL is already present, otherwise build the properties and icon,
submit the creation request, count it and log it. -/
def addStep (PRIORITY : String) (TOPIC : List String) (playlist_name : String)
    (st : ReconcileState) (v : Video) : ReconcileState :=
  if shouldSkip st.existing_urls v then
    { st with logs := st.logs ++ [LogEvent.skippedRec v.title] }
  else
    { st with
        created := st.created ++ [mkProperties PRIORITY TOPIC playlist_name v]
        added_count := st.added_count + 1
        logs := st.logs ++ [LogEvent.addedRec v.title] }

/-- `add_videos_to_notion`: fold the loop body over the records in
enumeration order starting from zero added pages, then emit the final
summary line with the added count. -/
def add_videos_to_notion (PRIORITY : String) (TOPIC : List String)
    (videos : List Video) (playlist_name : String) (existing_urls : Finset String) :
    ReconcileState :=
  let st := videos.foldl (addStep PRIORITY TOPIC playlist_name)
    { existing_urls := existing_urls, created := [], added_count := 0, logs := [] }
  { st with logs := st.logs ++ [LogEvent.doneSummary st.added_count] }

/-- The environment the module reads at import time via `os.getenv`:
`none` is an unset variable. -/
structure Env where
  NOTION_TOKEN : Option String
  DATABASE_ID : Option String
  PLAYLIST_ID : Option String
  PRIORITY : Option String
  TOPIC_LIST : Option String
deriving DecidableEq

/-- `str.split(",")`: cut the character list at every comma; the empty
list yields one empty piece, a trailing comma yields a trailing empty
piece. -/
def splitOnComma : List Char → List (List Char)
  | [] => [[]]
  | c :: rest =>
    match splitOnComma rest with
    | [] => [[]]
    | cur :: done => if c = ',' then [] :: cur :: done else (c :: cur) :: done

/-- Whitespace as `str.strip()` removes it (space and the ASCII control
whitespace range). -/
def isSpaceChar (c : Char) : Bool := c = ' ' || (9 ≤ c.toNat && c.toNat ≤ 13)

/-- `t.strip()`: drop whitespace from both ends. -/
def stripChars (l : List Char) : List Char :=
  ((l.dropWhile isSpaceChar).reverse.dropWhile isSpaceChar).reverse

/-- `TOPIC = [t.strip() for t in TOPIC_LIST.split(",") if t.strip()] if
TOPIC_LIST else []`: empty list when the variable is unset or the empty
string, otherwise the stripped comma-separated pieces that remain nonempty
after stripping. -/
def parseTopics : Option String → List String
  | none => []
  | some s =>
    if s = "" then []
    else ((splitOnComma s.data).map (fun l => (⟨stripChars l⟩ : String))).filter
      (fun t => !(t == ""))

/-- The validated configuration the rest of the run uses. -/
structure Config where
  token : String
  database_id : String
  playlist_id : String
  priority : String
  topic : List String
deriving DecidableEq

/-- The condition of the module-level check: `not NOTION_TOKEN or not
DATABASE_ID or not PLAYLIST_ID or not PRIORITY or TOPIC_LIST is None`. -/
def configMissing (e : Env) : Bool :=
  !(truthyStr e.NOTION_TOKEN) || !(truthyStr e.DATABASE_ID) ||
  !(truthyStr e.PLAYLIST_ID) || !(truthyStr e.PRIORITY) ||
  (e.TOPIC_LIST == none)

/-- The message of the `ValueError` raised on missing configuration. -/
def configErrorMsg : String :=
  "NOTION_TOKEN, DATABASE_ID, PLAYLIST_ID, PRIORITY, and TOPIC must be set in the .env file"

/-- The configuration values the module exposes when the check passes. -/
def configOf (e : Env) : Config :=
  { token := (e.NOTION_TOKEN.getD "")
    database_id := (e.DATABASE_ID.getD "")
    playlist_id := (e.PLAYLIST_ID.getD "")
    priority := (e.PRIORITY.getD "")
    topic := parseTopics e.TOPIC_LIST }

/-- The module-level startup: compute `TOPIC`, then raise when a required
variable is falsy (or `TOPIC_LIST` unset), else expose the configuration. -/
def loadConfig (e : Env) : Except String Config :=
  if configMissing e then Except.error configErrorMsg
  else Except.ok (configOf e)

/-- `PLAYLIST_URL = f"https://www.youtube.com/playlist?list=\x7bPLAYLIST_ID\x7d"`. -/
def playlistUrlOf (playlist_id : String) : String :=
  "https://www.youtube.com/playlist?list=" ++ playlist_id

/-- What a finished run produced. -/
structure RunResult where
  videos : List Video
  playlist_name : String
  existing : Finset String
  recon : ReconcileState
deriving DecidableEq

/-- The `__main__` block together with the module-level startup: validate
the configuration (raising before any oracle is consulted when it is
missing), enumerate and enrich the playlist, fetch the existing URLs, and
reconcile. -/
def mainRun (e : Env) (flat meta : String → ToolResult) (db : List QueryResp) :
    Except String RunResult :=
  match loadConfig e with
  | Except.error err => Except.error err
  | Except.ok cfg =>
    match fetch_playlist_videos flat meta (playlistUrlOf cfg.playlist_id) with
    | Except.error err => Except.error err
    | Except.ok (playlist_videos, playlist_title) =>
      let notion_existing_urls := fetch_existing_urls db
      let recon := add_videos_to_notion cfg.priority cfg.topic
        playlist_videos playlist_title notion_existing_urls
      Except.ok
        { videos := playlist_videos
          playlist_name := playlist_title
          existing := notion_existing_urls
          recon := recon }

/-! ### Helper lemmas -/

theorem addStep_existing (P : String) (T : List String) (pn : String)
    (st : ReconcileState) (v : Video) :
    (addStep P T pn st v).existing_urls = st.existing_urls := by
  unfold addStep
  split <;> rfl

/-- Characterization of the reconciler loop: the set is never written, the
created requests are the kept records mapped through the property builder
in order, the counter counts them, and one log line is emitted per record
in order. -/
theorem foldl_addStep_spec (P : String) (T : List String) (pn : String)
    (videos : List Video) (st : ReconcileState) :
    (videos.foldl (addStep P T pn) st).existing_urls = st.existing_urls ∧
    (videos.foldl (addStep P T pn) st).created =
      st.created ++ (videos.filter (fun v => !(shouldSkip st.existing_urls v))).map
        (mkProperties P T pn) ∧
    (videos.foldl (addStep P T pn) st).added_count =
      st.added_count + (videos.filter (fun v => !(shouldSkip st.existing_urls v))).length ∧
    (videos.foldl (addStep P T pn) st).logs =
      st.logs ++ videos.map (fun v =>
        if shouldSkip st.existing_urls v then LogEvent.skippedRec v.title
        else LogEvent.addedRec v.title) := by
  induction videos generalizing st with
  | nil => simp
  | cons v vs ih =>
    rcases ih (addStep P T pn st v) with ⟨h1, h2, h3, h4⟩
    rw [addStep_existing] at h1 h2 h3 h4
    rw [List.foldl_cons]
    refine ⟨h1, ?_, ?_, ?_⟩
    · rw [h2]
      by_cases hs : shouldSkip st.existing_urls v = true <;>
        simp [addStep, hs, List.filter_cons]
    · rw [h3]
      by_cases hs : shouldSkip st.existing_urls v = true <;>
        simp [addStep, hs, List.filter_cons] <;> omega
    · rw [h4]
      by_cases hs : shouldSkip st.existing_urls v = true <;>
        simp [addStep, hs]

/-- Specification of `add_videos_to_notion` in terms of a filter and a
map over the input records. -/
theorem add_videos_spec (P : String) (T : List String) (videos : List Video)
    (pn : String) (ex : Finset String) :
    (add_videos_to_notion P T videos pn ex).existing_urls = ex ∧
    (add_videos_to_notion P T videos pn ex).created =
      (videos.filter (fun v => !(shouldSkip ex v))).map (mkProperties P T pn) ∧
    (add_videos_to_notion P T videos pn ex).added_count =
      (videos.filter (fun v => !(shouldSkip ex v))).length ∧
    (add_videos_to_notion P T videos pn ex).logs =
      (videos.map (fun v =>
        if shouldSkip ex v then LogEvent.skippedRec v.title
        else LogEvent.addedRec v.title)) ++
      [LogEvent.doneSummary (videos.filter (fun v => !(shouldSkip ex v))).length] := by
  have h := foldl_addStep_spec P T pn videos
    { existing_urls := ex, created := [], added_count := 0, logs := [] }
  rcases h with ⟨h1, h2, h3, h4⟩
  unfold add_videos_to_notion
  refine ⟨h1, by simpa using h2, by simpa using h3, ?_⟩
  simp only [h4, h3]
  simp

theorem mem_addUrlProp (a : Finset String) (p : QueryPage) (u : String) :
    u ∈ addUrlProp a p ↔ u ∈ a ∨ (p.urlProp = some u ∧ u ≠ "") := by
  unfold addUrlProp
  split
  · rename_i w heq
    by_cases hw : w = ""
    · subst hw
      rw [if_pos rfl, heq]
      simp only [Option.some.injEq]
      constructor
      · exact Or.inl
      · rintro (h | ⟨rfl, h2⟩)
        · exact h
        · exact absurd rfl h2
    · rw [if_neg hw, heq, Finset.mem_insert]
      simp only [Option.some.injEq]
      constructor
      · rintro (rfl | h)
        · exact Or.inr ⟨rfl, hw⟩
        · exact Or.inl h
      · rintro (h | ⟨rfl, h2⟩)
        · exact Or.inr h
        · exact Or.inl rfl
  · rename_i heq
    rw [heq]
    simp

theorem mem_addPageUrls (pages : List QueryPage) (acc : Finset String) (u : String) :
    u ∈ addPageUrls acc pages ↔
      u ∈ acc ∨ ∃ p ∈ pages, p.urlProp = some u ∧ u ≠ "" := by
  induction pages generalizing acc with
  | nil => simp [addPageUrls]
  | cons p ps ih =>
    unfold addPageUrls at ih ⊢
    rw [List.foldl_cons, ih, mem_addUrlProp]
    constructor
    · rintro ((h | ⟨h2, h3⟩) | ⟨q, hq, h2⟩)
      · exact Or.inl h
      · exact Or.inr ⟨p, List.mem_cons_self _ _, h2, h3⟩
      · exact Or.inr ⟨q, List.mem_cons_of_mem _ hq, h2⟩
    · rintro (h | ⟨q, hq, h2⟩)
      · exact Or.inl (Or.inl h)
      · rcases List.mem_cons.mp hq with rfl | hq2
        · exact Or.inl (Or.inr h2)
        · exact Or.inr ⟨q, hq2, h2⟩

theorem fetchLoop_cons (acc : Finset String) (r : QueryResp) (rs : List QueryResp) :
    fetchLoop acc (r :: rs) =
      if r.has_more then fetchLoop (addPageUrls acc r.results) rs
      else addPageUrls acc r.results := by
  rfl

theorem servedResponses_cons (r : QueryResp) (rs : List QueryResp) :
    servedResponses (r :: rs) =
      if r.has_more then r :: servedResponses rs else [r] := by
  rfl

theorem mem_fetchLoop (resps : List QueryResp) (acc : Finset String) (u : String) :
    u ∈ fetchLoop acc resps ↔
      u ∈ acc ∨ ∃ r ∈ servedResponses resps, ∃ p ∈ r.results, p.urlProp = some u ∧ u ≠ "" := by
  induction resps generalizing acc with
  | nil => simp [fetchLoop, servedResponses]
  | cons r rs ih =>
    rw [fetchLoop_cons, servedResponses_cons]
    by_cases hm : r.has_more
    · rw [if_pos hm, if_pos hm, ih, mem_addPageUrls]
      constructor
      · rintro ((h | ⟨p, hp, h2, h3⟩) | ⟨q, hq, h2⟩)
        · exact Or.inl h
        · exact Or.inr ⟨r, List.mem_cons_self _ _, p, hp, h2, h3⟩
        · exact Or.inr ⟨q, List.mem_cons_of_mem _ hq, h2⟩
      · rintro (h | ⟨q, hq, h2⟩)
        · exact Or.inl (Or.inl h)
        · rcases List.mem_cons.mp hq with rfl | hq2
          · exact Or.inl (Or.inr h2)
          · exact Or.inr ⟨q, hq2, h2⟩
    · rw [if_neg hm, if_neg hm, mem_addPageUrls]
      constructor
      · rintro (h | ⟨p, hp, h2, h3⟩)
        · exact Or.inl h
        · exact Or.inr ⟨r, List.mem_singleton_self _, p, hp, h2, h3⟩
      · rintro (h | ⟨q, hq, h2⟩)
        · exact Or.inl h
        · rw [List.mem_singleton] at hq
          subst hq
          exact Or.inr h2

/-- Membership in the fetched set of existing URLs. -/
theorem mem_fetch_existing_urls (resps : List QueryResp) (u : String) :
    u ∈ fetch_existing_urls resps ↔
      ∃ r ∈ servedResponses resps, ∃ p ∈ r.results, p.urlProp = some u ∧ u ≠ "" := by
  rw [fetch_existing_urls, mem_fetchLoop]
  simp

/-- The loop never looks past the first response that reports no more
pages. -/
theorem fetchLoop_served (resps : List QueryResp) (acc : Finset String) :
    fetchLoop acc resps = fetchLoop acc (servedResponses resps) := by
  induction resps generalizing acc with
  | nil => rfl
  | cons r rs ih =>
    rw [fetchLoop_cons, servedResponses_cons]
    by_cases hm : r.has_more
    · rw [if_pos hm, if_pos hm, ih, fetchLoop_cons, if_pos hm]
    · rw [if_neg hm, if_neg hm, fetchLoop_cons, if_neg hm]

/-- Everything the parser guarantees about a successfully parsed upload
date: the input was exactly 8 digits and the output is those digits
re-arranged into a calendar-valid `YYYY-MM-DD` string. -/
theorem parseUploadDate_spec (s t : String) (h : parseUploadDate s = Except.ok t) :
    s.length = 8 ∧ s.data.all Char.isDigit = true ∧
    t.data = s.data.take 4 ++ ['-'] ++ ((s.data.drop 4).take 2) ++ ['-'] ++ s.data.drop 6 ∧
    isValidIsoDate t = true := by
  unfold parseUploadDate at h
  split at h
  · rename_i a b c e f g hh i
    split at h
    · rename_i hcond
      rw [Bool.and_eq_true] at hcond
      injection h with h2
      subst h2
      refine ⟨rfl, hcond.1, rfl, ?_⟩
      simp only [isValidIsoDate]
      simp [hcond.1, hcond.2]
    · exact absurd h (by simp)
  · exact absurd h (by simp)

theorem truthyStr_eq_true (o : Option String) :
    truthyStr o = true ↔ (o ≠ none ∧ o ≠ some "") := by
  cases o with
  | none => simp [truthyStr]
  | some s =>
    simp only [truthyStr, Bool.not_eq_true', beq_eq_false_iff_ne, ne_eq,
      Option.some.injEq, reduceCtorEq]
    simp

theorem length_filter_map_eq {α β : Type} (f : α → β) (p : β → Bool) (l : List α) :
    ((l.map f).filter p).length = (l.filter (fun a => p (f a))).length := by
  induction l with
  | nil => rfl
  | cons a as ih => by_cases h : p (f a) <;> simp [h, ih, List.filter_cons]

theorem length_filter_filter_eq {α : Type} (p q : α → Bool) (l : List α) :
    ((l.filter p).filter q).length = (l.filter (fun a => p a && q a)).length := by
  rw [List.filter_filter]
  have hc : (fun a => q a && p a) = (fun a => p a && q a) := by
    funext a
    exact Bool.and_comm _ _
  rw [hc]

theorem length_filter_congr_mem {α : Type} (p q : α → Bool) (l : List α)
    (h : ∀ a ∈ l, p a = q a) : (l.filter p).length = (l.filter q).length := by
  induction l with
  | nil => rfl
  | cons a as ih =>
    have ha := h a (List.mem_cons_self _ _)
    have has : ∀ b ∈ as, p b = q b := fun b hb => h b (List.mem_cons_of_mem _ hb)
    by_cases hp : p a
    · rw [List.filter_cons, List.filter_cons, if_pos hp, if_pos (ha ▸ hp)]
      simp [ih has]
    · have hq : ¬(q a = true) := by rw [← ha]; exact hp
      rw [List.filter_cons, List.filter_cons, if_neg hp, if_neg hq]
      exact ih has

/-! ### Example data from the specification -/

/-- The playlist display name used in the worked example. -/
def examplePlaylistName : String := "My Playlist"

/-- The URL already stored in the database in the worked example. -/
def exampleExistingUrl : String := "https://www.youtube.com/watch?v=abc123"

/-- Example record 1: the URL-less private placeholder. -/
def examplePrivateNoUrl : Video := placeholderVideo examplePlaylistName

/-- Example record 2: a private record whose URL is not in the
existing-URL set. -/
def examplePrivateWithUrl : Video :=
  { title := mkPrivateTitle examplePlaylistName
    url := some "https://www.youtube.com/watch?v=def456"
    og_added_iso := none
    length_sec := none
    isPrivate := true }

/-- Example record 3: the public record whose URL is in the existing-URL
set. -/
def examplePublic : Video :=
  { title := "Cool Video"
    url := some exampleExistingUrl
    og_added_iso := some "2023-01-15"
    length_sec := some 212
    isPrivate := false }

/-- The three example records, in enumeration order. -/
def exampleVideos : List Video :=
  [examplePrivateNoUrl, examplePrivateWithUrl, examplePublic]

/-- The example existing-URL set. -/
def exampleExisting : Finset String := {exampleExistingUrl}

/-! ### Claims -/

/-- C1: the reconciler processes records in enumeration order, skips
exactly those whose URL is a member of the existing-URL set, creates one
page per other record, and reports the added count in the final summary
(each skipped record producing its own skip log line); on the worked
example it inserts the two private placeholders, skips the public record,
and ends with added count 2 after exactly one skip line. -/
theorem c1_reconciler_order_skip_counts (P : String) (T : List String)
    (videos : List Video) (pn : String) (ex : Finset String) :
    ((add_videos_to_notion P T videos pn ex).created =
      (videos.filter (fun v => !(shouldSkip ex v))).map (mkProperties P T pn) ∧
     (add_videos_to_notion P T videos pn ex).added_count =
      (videos.filter (fun v => !(shouldSkip ex v))).length ∧
     (add_videos_to_notion P T videos pn ex).logs =
      (videos.map (fun v => if shouldSkip ex v then LogEvent.skippedRec v.title
        else LogEvent.addedRec v.title)) ++
      [LogEvent.doneSummary (videos.filter (fun v => !(shouldSkip ex v))).length] ∧
     (∀ v : Video, shouldSkip ex v = true ↔ ∃ u, v.url = some u ∧ u ∈ ex)) ∧
    ((add_videos_to_notion "High" ["AI"] exampleVideos examplePlaylistName
        exampleExisting).created =
      [mkProperties "High" ["AI"] examplePlaylistName examplePrivateNoUrl,
       mkProperties "High" ["AI"] examplePlaylistName examplePrivateWithUrl] ∧
     (add_videos_to_notion "High" ["AI"] exampleVideos examplePlaylistName
        exampleExisting).added_count = 2 ∧
     (add_videos_to_notion "High" ["AI"] exampleVideos examplePlaylistName
        exampleExisting).logs =
      [LogEvent.addedRec (mkPrivateTitle examplePlaylistName),
       LogEvent.addedRec (mkPrivateTitle examplePlaylistName),
       LogEvent.skippedRec "Cool Video",
       LogEvent.doneSummary 2]) := by
  constructor
  · rcases add_videos_spec P T videos pn ex with ⟨_, h2, h3, h4⟩
    refine ⟨h2, h3, h4, ?_⟩
    intro v
    cases hv : v.url with
    | none => simp [shouldSkip, hv]
    | some u => simp [shouldSkip, hv]
  · refine ⟨by decide, by decide, by decide⟩

/-- C1 witness: the worked example evaluated. -/
theorem c1_witness :
    (add_videos_to_notion "High" ["AI"] exampleVideos examplePlaylistName
      exampleExisting).added_count = 2 :=
  (c1_reconciler_order_skip_counts "High" ["AI"] exampleVideos examplePlaylistName
    exampleExisting).2.2.1

/-- C2 counterexample: one URL-less private placeholder record.  The first
run inserts it (one created page, whose URL property is absent).  The
second run, against the database now holding exactly the page the first
run created, inserts it again: one new page, not zero. -/
theorem c2_counterexample :
    (add_videos_to_notion "High" [] [placeholderVideo "P"] "P"
      (fetch_existing_urls [])).created.length = 1 ∧
    (add_videos_to_notion "High" [] [placeholderVideo "P"] "P"
      (fetch_existing_urls
        [{ results := (add_videos_to_notion "High" [] [placeholderVideo "P"] "P"
              (fetch_existing_urls [])).created.map (fun p => { urlProp := p.url }),
           has_more := false }])).created.length = 1 := by
  constructor
  · decide
  · decide

/-- C2 (amended): when every record carries a (nonempty) URL, the second
run against the database as populated by the first run inserts nothing; in
general the second run re-inserts exactly the URL-less placeholder
records.  `db2` is constrained to store exactly the URLs of the first
database plus the URL properties of the pages the first run created. -/
theorem c2_second_run_inserts_only_urlless (P : String) (T : List String)
    (videos : List Video) (pn : String) (db1 db2 : List QueryResp)
    (h1 : ∀ v ∈ videos, ∀ u, v.url = some u → u ≠ "")
    (h2 : ∀ u, u ∈ fetch_existing_urls db2 ↔
      (u ∈ fetch_existing_urls db1 ∨
       ∃ p ∈ (add_videos_to_notion P T videos pn (fetch_existing_urls db1)).created,
         p.url = some u)) :
    (add_videos_to_notion P T videos pn (fetch_existing_urls db2)).created =
      (videos.filter (fun v => v.url.isNone)).map (mkProperties P T pn) ∧
    (add_videos_to_notion P T videos pn (fetch_existing_urls db2)).added_count =
      (videos.filter (fun v => v.url.isNone)).length ∧
    ((∀ v ∈ videos, v.url ≠ none) →
      (add_videos_to_notion P T videos pn (fetch_existing_urls db2)).created = []) := by
  rcases add_videos_spec P T videos pn (fetch_existing_urls db2) with ⟨_, g2, g3, _⟩
  have key : ∀ v ∈ videos,
      (!(shouldSkip (fetch_existing_urls db2) v)) = v.url.isNone := by
    intro v hv
    cases hvu : v.url with
    | none => simp [shouldSkip, hvu]
    | some u =>
      have hne := h1 v hv u hvu
      have hmem2 : u ∈ fetch_existing_urls db2 := by
        rw [h2]
        by_cases hmem : u ∈ fetch_existing_urls db1
        · exact Or.inl hmem
        · refine Or.inr ⟨mkProperties P T pn v, ?_, ?_⟩
          · rcases add_videos_spec P T videos pn (fetch_existing_urls db1) with ⟨_, k2, _, _⟩
            rw [k2]
            exact List.mem_map_of_mem _
              (List.mem_filter.mpr ⟨hv, by simp [shouldSkip, hvu, hmem]⟩)
          · simp [mkProperties, hvu, hne]
      simp [shouldSkip, hvu, hmem2]
  have hfeq : videos.filter (fun v => !(shouldSkip (fetch_existing_urls db2) v)) =
      videos.filter (fun v => v.url.isNone) := List.filter_congr key
  refine ⟨by rw [g2, hfeq], by rw [g3, hfeq], ?_⟩
  intro hall
  rw [g2, hfeq]
  have : videos.filter (fun v => v.url.isNone) = [] := by
    rw [List.filter_eq_nil_iff]
    intro v hv
    rcases hx : v.url with _ | u
    · exact absurd hx (hall v hv)
    · simp [hx]
  rw [this]
  rfl

/-- The page stored in Notion for a creation request: it carries the URL
property exactly when the request had one. -/
def storedPageOf (p : PageRequest) : QueryPage := { urlProp := p.url }

/-- The single query response serving exactly the pages a first run over
`[examplePublic]` (with nothing pre-existing) created. -/
def c2WitnessResp : QueryResp :=
  { results := (add_videos_to_notion "High" [] [examplePublic] "P"
      (fetch_existing_urls [])).created.map storedPageOf
    has_more := false }

/-- A one-response database: the state after the first run. -/
def c2WitnessDb : List QueryResp := [c2WitnessResp]

/-- C2 witness: the amended theorem applied to one record with a URL not
yet stored; the second run inserts nothing. -/
theorem c2_witness :
    (add_videos_to_notion "High" [] [examplePublic] "P"
      (fetch_existing_urls c2WitnessDb)).created = [] := by
  have h := c2_second_run_inserts_only_urlless "High" [] [examplePublic] "P" []
    c2WitnessDb
    (by decide)
    (by
      intro u
      constructor
      · intro hm
        rw [mem_fetch_existing_urls] at hm
        rcases hm with ⟨r, hr, p, hp, hup, hne⟩
        simp [c2WitnessDb, servedResponses] at hr
        subst hr
        simp [c2WitnessResp, List.mem_map] at hp
        rcases hp with ⟨q, hq, rfl⟩
        exact Or.inr ⟨q, hq, hup⟩
      · rintro (hm | ⟨p, hp, hup⟩)
        · rw [mem_fetch_existing_urls] at hm
          rcases hm with ⟨r, hr, _⟩
          simp [servedResponses] at hr
        · rw [mem_fetch_existing_urls]
          refine ⟨c2WitnessResp, by simp [c2WitnessDb, servedResponses, c2WitnessResp],
              storedPageOf p, List.mem_map_of_mem _ hp, hup, ?_⟩
          have hc : (add_videos_to_notion "High" [] [examplePublic] "P"
              (fetch_existing_urls [])).created =
              [mkProperties "High" [] "P" examplePublic] := by decide
          rw [hc, List.mem_singleton] at hp
          subst hp
          have hx : (mkProperties "High" [] "P" examplePublic).url =
              some exampleExistingUrl := by decide
          rw [hx] at hup
          injection hup with hu
          subst hu
          decide)
  exact h.2.2 (by decide)

/-- C3: a null/absent playlist entry yields a record with
`isPrivate = true`, no URL, no date, no duration, and the synthesized
title "Private Video -> \x7bplaylist_name\x7d"; such an entry inside a
playlist listing produces exactly that record. -/
theorem c3_null_entry_placeholder (meta : String → ToolResult) (pn : String) :
    processEntry meta pn none = Except.ok (placeholderVideo pn) ∧
    placeholderVideo pn =
      { title := "Private Video -> " ++ pn, url := none, og_added_iso := none,
        length_sec := none, isPrivate := true } ∧
    (∀ (flat : String → ToolResult) (purl : String) (j : YtJson),
      flat purl = ToolResult.output j → j.entries = some [none] →
      fetch_playlist_videos flat meta purl =
        Except.ok ([placeholderVideo (j.title.getD "Unknown Playlist")],
          j.title.getD "Unknown Playlist")) := by
  refine ⟨rfl, rfl, ?_⟩
  intro flat purl j hf he
  unfold fetch_playlist_videos
  rw [hf]
  simp [run_yt_dlp, he, buildVideos, processEntry]

/-- C3 witness: the placeholder record built inside a concrete playlist
listing. -/
theorem c3_witness :
    fetch_playlist_videos
      (fun _ => ToolResult.output { title := some "P", entries := some [none] })
      (fun _ => ToolResult.noOutput) "u" =
      Except.ok ([placeholderVideo "P"], "P") := by
  have h := (c3_null_entry_placeholder (fun _ => ToolResult.noOutput) "P").2.2
    (fun _ => ToolResult.output { title := some "P", entries := some [none] }) "u"
    { title := some "P", entries := some [none] } rfl rfl
  simpa using h

/-- C4: an entry whose raw title is absent or case-insensitively equals
"[private video]" is marked private, its display title is overridden to
the "Private Video -> \x7bplaylist\x7d" form, and its URL is still derived
from the entry id when a truthy id is present (absent otherwise). -/
theorem c4_private_sentinel (meta : String → ToolResult) (pn : String) (e : Entry)
    (h : e.title = none ∨ ∃ t, e.title = some t ∧ toLowerAscii t = "[private video]") :
    processEntry meta pn (some e) =
      Except.ok { title := mkPrivateTitle pn, url := entryUrl e,
                  og_added_iso := none, length_sec := none, isPrivate := true } ∧
    (∀ i, e.id = some i → i ≠ "" →
      entryUrl e = some ("https://www.youtube.com/watch?v=" ++ i)) ∧
    (e.id = none → entryUrl e = none) := by
  have hp : entryIsPrivate e = true := by
    rcases h with h | ⟨t, ht, hl⟩
    · simp [entryIsPrivate, h]
    · simp [entryIsPrivate, ht, hl]
  refine ⟨?_, ?_, ?_⟩
  · simp only [processEntry]
    rw [hp]
    simp [entryTitle, hp]
  · intro i hi hne
    simp [entryUrl, hi, hne]
  · intro hi
    simp [entryUrl, hi]

/-- C4 witness: the sentinel-titled entry with id `abc123`. -/
theorem c4_witness :
    processEntry (fun _ => ToolResult.noOutput) "My Playlist"
      (some { id := some "abc123", title := some "[Private Video]" }) =
      Except.ok { title := mkPrivateTitle "My Playlist",
                  url := entryUrl { id := some "abc123", title := some "[Private Video]" },
                  og_added_iso := none, length_sec := none, isPrivate := true } ∧
    entryUrl { id := some "abc123", title := some "[Private Video]" } =
      some ("https://www.youtube.com/watch?v=" ++ "abc123") := by
  have h := c4_private_sentinel (fun _ => ToolResult.noOutput) "My Playlist"
    { id := some "abc123", title := some "[Private Video]" }
    (Or.inr ⟨"[Private Video]", rfl, by decide⟩)
  exact ⟨h.1, h.2.1 "abc123" rfl (by decide)⟩

/-- C5: the enricher runs only for public records with a truthy URL (for
private or URL-less entries the result carries no date and no duration and
is independent of the metadata oracle), and when it runs, absent
`upload_date` or `duration` propagates as absence while a present
`originalAddedDate` is exactly the tool's 8-digit upload-date string
re-arranged into a calendar-valid ISO date, the duration taken verbatim. -/
theorem c5_enricher_gating_and_dates :
    (∀ (meta1 meta2 : String → ToolResult) (pn : String) (e : Entry),
      (entryIsPrivate e = true ∨ entryUrl e = none) →
      processEntry meta1 pn (some e) = processEntry meta2 pn (some e) ∧
      ∃ v, processEntry meta1 pn (some e) = Except.ok v ∧
        v.og_added_iso = none ∧ v.length_sec = none) ∧
    (∀ (meta : String → ToolResult) (url : String) (og : Option String) (len : Option Int),
      fetch_video_metadata meta url = Except.ok (og, len) →
      len = (run_yt_dlp (meta url)).duration ∧
      ((run_yt_dlp (meta url)).upload_date = none → og = none) ∧
      ((run_yt_dlp (meta url)).upload_date = some "" → og = none) ∧
      (∀ d, og = some d →
        ∃ s, (run_yt_dlp (meta url)).upload_date = some s ∧ s ≠ "" ∧
          s.length = 8 ∧ s.data.all Char.isDigit = true ∧
          d.data = s.data.take 4 ++ ['-'] ++ ((s.data.drop 4).take 2) ++ ['-'] ++
            s.data.drop 6 ∧
          isValidIsoDate d = true)) := by
  constructor
  · intro meta1 meta2 pn e h
    have hcond : (!entryIsPrivate e && truthyStr (entryUrl e)) = false := by
      rcases h with h | h <;> simp [h, truthyStr]
    constructor
    · simp only [processEntry, hcond]
      simp
    · simp only [processEntry, hcond]
      simp only [Bool.false_eq_true, if_false]
      exact ⟨_, rfl, rfl, rfl⟩
  · intro meta url og len h
    unfold fetch_video_metadata at h
    split at h
    · rename_i hup
      simp only [Except.ok.injEq, Prod.mk.injEq] at h
      rcases h with ⟨hog, hlen⟩
      subst hog
      subst hlen
      refine ⟨rfl, fun _ => rfl, fun _ => rfl, ?_⟩
      intro d hd
      cases hd
    · rename_i s hup
      split at h
      · rename_i hs
        subst hs
        simp only [Except.ok.injEq, Prod.mk.injEq] at h
        rcases h with ⟨hog, hlen⟩
        subst hog
        subst hlen
        refine ⟨rfl, fun _ => rfl, fun _ => rfl, ?_⟩
        intro d hd
        cases hd
      · rename_i hs
        split at h
        · rename_i d0 hparse
          simp only [Except.ok.injEq, Prod.mk.injEq] at h
          rcases h with ⟨hog, hlen⟩
          subst hog
          subst hlen
          refine ⟨rfl, ?_, ?_, ?_⟩
          · intro hc
            rw [hup] at hc
            cases hc
          · intro hc
            rw [hup] at hc
            injection hc with hc2
            exact absurd hc2 hs
          · intro d hd
            injection hd with hd2
            subst hd2
            rcases parseUploadDate_spec s d0 hparse with ⟨k1, k2, k3, k4⟩
            exact ⟨s, hup, fun hc => hs hc, k1, k2, k3, k4⟩
        · exact absurd h (by simp)

/-- C5 witness: a concrete enrichment with upload date `20230115` and
duration 212, and a private entry left untouched. -/
theorem c5_witness :
    fetch_video_metadata
      (fun _ => ToolResult.output { upload_date := some "20230115", duration := some 212 })
      "u" = Except.ok (some "2023-01-15", some 212) ∧
    isValidIsoDate "2023-01-15" = true ∧
    processEntry (fun _ => ToolResult.noOutput) "P"
      (some { id := some "abc123", title := none }) =
    processEntry (fun _ => ToolResult.invalidJson) "P"
      (some { id := some "abc123", title := none }) := by
  refine ⟨by rfl, ?_, ?_⟩
  · have h := (c5_enricher_gating_and_dates).2
      (fun _ => ToolResult.output { upload_date := some "20230115", duration := some 212 })
      "u" (some "2023-01-15") (some 212) (by rfl)
    exact h.2.2.2 "2023-01-15" rfl |>.choose_spec.2.2.2.2.2
  · exact ((c5_enricher_gating_and_dates).1
      (fun _ => ToolResult.noOutput) (fun _ => ToolResult.invalidJson) "P"
      { id := some "abc123", title := none } (Or.inl (by decide))).1

/-- C6: the existing-records fetcher follows the cursor until the service
reports no more pages and returns exactly the set of truthy URL property
values on the returned pages; a record whose URL is in this set is skipped
and no page holding that URL is created. -/
theorem c6_fetcher_pagination_complete (db : List QueryResp) :
    (∀ u, u ∈ fetch_existing_urls db ↔
      ∃ r ∈ servedResponses db, ∃ p ∈ r.results, p.urlProp = some u ∧ u ≠ "") ∧
    fetch_existing_urls db = fetch_existing_urls (servedResponses db) ∧
    (∀ (P : String) (T : List String) (videos : List Video) (pn : String)
        (v : Video) (u : String),
      v.url = some u → u ∈ fetch_existing_urls db →
      shouldSkip (fetch_existing_urls db) v = true ∧
      ∀ p ∈ (add_videos_to_notion P T videos pn (fetch_existing_urls db)).created,
        p.url ≠ some u) := by
  refine ⟨mem_fetch_existing_urls db, fetchLoop_served db ∅, ?_⟩
  intro P T videos pn v u hv hu
  constructor
  · simp [shouldSkip, hv, hu]
  · intro p hp
    rcases add_videos_spec P T videos pn (fetch_existing_urls db) with ⟨_, h2, _, _⟩
    rw [h2] at hp
    rcases List.mem_map.mp hp with ⟨w, hw, rfl⟩
    rcases List.mem_filter.mp hw with ⟨_, hwkeep⟩
    intro hcontra
    have hwu : w.url = some u := by
      cases hx : w.url with
      | none => simp [mkProperties, hx] at hcontra
      | some x =>
        by_cases hxe : x = ""
        · simp [mkProperties, hx, hxe] at hcontra
        · simp [mkProperties, hx, hxe] at hcontra
          rw [hcontra]
    have hsk : shouldSkip (fetch_existing_urls db) w = true := by
      simp [shouldSkip, hwu, hu]
    rw [hsk] at hwkeep
    cases hwkeep

/-- C6 witness: a two-response database; the loop stops at the response
with `has_more` false and collects both truthy URLs. -/
theorem c6_witness :
    ("a" ∈ fetch_existing_urls
      [{ results := [{ urlProp := some "a" }, { urlProp := none }], has_more := true },
       { results := [{ urlProp := some "b" }, { urlProp := some "" }], has_more := false },
       { results := [{ urlProp := some "c" }], has_more := false }] ↔
      ∃ r ∈ servedResponses
        [{ results := [{ urlProp := some "a" }, { urlProp := none }], has_more := true },
         { results := [{ urlProp := some "b" }, { urlProp := some "" }], has_more := false },
         { results := [{ urlProp := some "c" }], has_more := false }],
        ∃ p ∈ r.results, p.urlProp = some "a" ∧ "a" ≠ "") :=
  (c6_fetcher_pagination_complete
    [{ results := [{ urlProp := some "a" }, { urlProp := none }], has_more := true },
     { results := [{ urlProp := some "b" }, { urlProp := some "" }], has_more := false },
     { results := [{ urlProp := some "c" }], has_more := false }]).1 "a"

/-- C7: when the tool produces no output or output that fails to parse,
the enumerator returns zero entries and the "Unknown Playlist" name
without aborting, and a whole run under a valid configuration still
completes with an ok result (zero records, zero pages created). -/
theorem c7_tool_failure_continues (flat meta : String → ToolResult) (purl : String)
    (h : flat purl = ToolResult.noOutput ∨ flat purl = ToolResult.invalidJson) :
    fetch_playlist_videos flat meta purl = Except.ok ([], "Unknown Playlist") ∧
    (∀ (e : Env) (db : List QueryResp),
      configMissing e = false →
      (∀ u, flat u = ToolResult.noOutput ∨ flat u = ToolResult.invalidJson) →
      ∃ res, mainRun e flat meta db = Except.ok res ∧
        res.videos = [] ∧ res.playlist_name = "Unknown Playlist" ∧
        res.recon.created = [] ∧ res.recon.added_count = 0 ∧
        res.recon.logs = [LogEvent.doneSummary 0]) := by
  have hfp : ∀ (flat2 : String → ToolResult) (u : String),
      flat2 u = ToolResult.noOutput ∨ flat2 u = ToolResult.invalidJson →
      fetch_playlist_videos flat2 meta u = Except.ok ([], "Unknown Playlist") := by
    intro flat2 u hu
    unfold fetch_playlist_videos
    rcases hu with hu | hu <;> rw [hu] <;> rfl
  refine ⟨hfp flat purl h, ?_⟩
  intro e db hcfg hall
  refine ⟨{ videos := [], playlist_name := "Unknown Playlist",
            existing := fetch_existing_urls db,
            recon := add_videos_to_notion (e.PRIORITY.getD "") (parseTopics e.TOPIC_LIST)
              [] "Unknown Playlist" (fetch_existing_urls db) },
    ?_, rfl, rfl, rfl, rfl, rfl⟩
  unfold mainRun loadConfig
  rw [hcfg]
  simp only [Bool.false_eq_true, if_false]
  rw [hfp flat _ (hall _)]
  rfl

/-- C7 witness: a run with a failing tool, a valid environment and an
empty database ends ok with zero videos. -/
theorem c7_witness :
    fetch_playlist_videos (fun _ => ToolResult.noOutput) (fun _ => ToolResult.noOutput)
      "u" = Except.ok ([], "Unknown Playlist") ∧
    ∃ res, mainRun ⟨some "t", some "d", some "p", some "High", some "AI"⟩
      (fun _ => ToolResult.noOutput) (fun _ => ToolResult.noOutput) [] =
      Except.ok res ∧ res.videos = [] ∧ res.playlist_name = "Unknown Playlist" ∧
      res.recon.created = [] ∧ res.recon.added_count = 0 ∧
      res.recon.logs = [LogEvent.doneSummary 0] := by
  have h := c7_tool_failure_continues (fun _ => ToolResult.noOutput)
    (fun _ => ToolResult.noOutput) "u" (Or.inl rfl)
  exact ⟨h.1, h.2 _ [] (by decide) (fun _ => Or.inl rfl)⟩

/-- C8: with any required environment variable unset the run aborts with
the configuration error before consulting any oracle (the result is the
same error for every tool behaviour and every database); with all of them
set truthy (topic list merely set), startup validation succeeds. -/
theorem c8_missing_config_aborts (e : Env) :
    ((e.NOTION_TOKEN = none ∨ e.DATABASE_ID = none ∨ e.PLAYLIST_ID = none ∨
      e.PRIORITY = none ∨ e.TOPIC_LIST = none) →
      ∀ (flat meta : String → ToolResult) (db : List QueryResp),
        mainRun e flat meta db = Except.error configErrorMsg) ∧
    ((truthyStr e.NOTION_TOKEN = true ∧ truthyStr e.DATABASE_ID = true ∧
      truthyStr e.PLAYLIST_ID = true ∧ truthyStr e.PRIORITY = true ∧
      e.TOPIC_LIST ≠ none) →
      ∃ c, loadConfig e = Except.ok c) := by
  constructor
  · intro h flat meta db
    have hm : configMissing e = true := by
      rcases h with h | h | h | h | h <;> simp [configMissing, h, truthyStr]
    unfold mainRun loadConfig
    rw [hm]
    rfl
  · rintro ⟨h1, h2, h3, h4, h5⟩
    have hm : configMissing e = false := by
      rcases Option.ne_none_iff_exists'.mp h5 with ⟨t, ht⟩
      simp [configMissing, h1, h2, h3, h4, ht]
    refine ⟨configOf e, ?_⟩
    unfold loadConfig
    rw [hm]
    rfl

/-- C8 witness: a missing token aborts with the error for arbitrary
oracles; a fully set environment validates. -/
theorem c8_witness :
    mainRun ⟨none, some "d", some "p", some "High", some "AI"⟩
      (fun _ => ToolResult.noOutput) (fun _ => ToolResult.noOutput) [] =
      Except.error configErrorMsg ∧
    ∃ c, loadConfig ⟨some "t", some "d", some "p", some "High", some ""⟩ =
      Except.ok c :=
  ⟨(c8_missing_config_aborts _).1 (Or.inl rfl) _ _ _,
   (c8_missing_config_aborts _).2 ⟨by decide, by decide, by decide, by decide, by decide⟩⟩

/-- C9: the reconciler returns the existing-URL set it was given unchanged
in its state, and consequently every record whose (nonempty) URL is new
yields a page-creation request even when the same URL occurs several times
in one run: the number of created pages holding URL `u` equals the number
of input records with URL `u`. -/
theorem c9_existing_set_never_modified (P : String) (T : List String)
    (videos : List Video) (pn : String) (ex : Finset String) :
    (add_videos_to_notion P T videos pn ex).existing_urls = ex ∧
    (∀ u, u ∉ ex → u ≠ "" →
      (((add_videos_to_notion P T videos pn ex).created).filter
        (fun p => decide (p.url = some u))).length =
      (videos.filter (fun v => decide (v.url = some u))).length) := by
  rcases add_videos_spec P T videos pn ex with ⟨h1, h2, _, _⟩
  refine ⟨h1, ?_⟩
  intro u hu hne
  rw [h2, length_filter_map_eq, length_filter_filter_eq]
  apply length_filter_congr_mem
  intro v _
  cases hv : v.url with
  | none => simp [shouldSkip, hv, mkProperties]
  | some w =>
    by_cases hw : w = ""
    · subst hw
      simp [shouldSkip, mkProperties, hv, Ne.symm hne]
    · by_cases hwu : w = u
      · subst hwu
        simp [shouldSkip, mkProperties, hv, hw, hu]
      · simp [shouldSkip, mkProperties, hv, hw, hwu]

/-- C9 witness: two records with the same fresh URL both produce a page in
a single run. -/
theorem c9_witness :
    (((add_videos_to_notion "High" [] [examplePublic, examplePublic] "P"
        ∅).created).filter
      (fun p => decide (p.url = some exampleExistingUrl))).length = 2 := by
  have h := (c9_existing_set_never_modified "High" [] [examplePublic, examplePublic]
    "P" ∅).2 exampleExistingUrl (by decide) (by decide)
  rw [h]
  decide

/-- C10: startup validation succeeds iff token, database id, playlist id
and priority are set and nonempty and the topic list variable is set; a
topic list that is empty or only commas/whitespace yields an empty topic
list, and every created page carries exactly the configured topic list (so
an empty one yields an empty multi-select). -/
theorem c10_validation_characterization (e : Env) :
    ((∃ c, loadConfig e = Except.ok c) ↔
      ((e.NOTION_TOKEN ≠ none ∧ e.NOTION_TOKEN ≠ some "") ∧
       (e.DATABASE_ID ≠ none ∧ e.DATABASE_ID ≠ some "") ∧
       (e.PLAYLIST_ID ≠ none ∧ e.PLAYLIST_ID ≠ some "") ∧
       (e.PRIORITY ≠ none ∧ e.PRIORITY ≠ some "") ∧
       e.TOPIC_LIST ≠ none)) ∧
    (∀ s : String, (∀ t ∈ splitOnComma s.data, stripChars t = []) →
      parseTopics (some s) = []) ∧
    (∀ c, loadConfig e = Except.ok c → c.topic = parseTopics e.TOPIC_LIST) ∧
    parseTopics (some "") = [] ∧
    parseTopics (some " ,  , ") = [] ∧
    (∀ (P pn : String) (T : List String) (v : Video),
      (mkProperties P T pn v).topic = T) := by
  refine ⟨?_, ?_, ?_, rfl, by decide, fun P pn T v => rfl⟩
  · have hiff : (∃ c, loadConfig e = Except.ok c) ↔ configMissing e = false := by
      unfold loadConfig
      cases hm : configMissing e <;> simp
    have hchar : configMissing e = false ↔
        (truthyStr e.NOTION_TOKEN = true ∧ truthyStr e.DATABASE_ID = true ∧
         truthyStr e.PLAYLIST_ID = true ∧ truthyStr e.PRIORITY = true ∧
         e.TOPIC_LIST ≠ none) := by
      simp [configMissing, and_assoc]
    rw [hiff, hchar, truthyStr_eq_true, truthyStr_eq_true, truthyStr_eq_true,
      truthyStr_eq_true]
  · intro s hs
    simp only [parseTopics]
    by_cases h0 : s = ""
    · simp [h0]
    · rw [if_neg h0, List.filter_eq_nil_iff]
      intro t ht
      rcases List.mem_map.mp ht with ⟨w, hw, rfl⟩
      simp [hs w hw]
  · intro c hc
    unfold loadConfig at hc
    split at hc
    · cases hc
    · injection hc with hc2
      rw [← hc2]
      rfl

/-- C10 witness: an environment whose topic list is the empty string
validates and yields an empty topic list. -/
theorem c10_witness :
    (∃ c, loadConfig ⟨some "t", some "d", some "p", some "High", some ""⟩ =
      Except.ok c) ∧
    parseTopics (some " ,  , ") = [] := by
  have h := c10_validation_characterization
    ⟨some "t", some "d", some "p", some "High", some ""⟩
  exact ⟨h.1.mpr (by decide), h.2.2.2.2.1⟩

end NotionYoutube
